import Mathlib

/-!
# Verification of the familytime backend core (src/server.js)

Shallow embedding of the Express/Mongoose handlers in `src/server.js`:
the MongoDB collections become Lean lists, `findOne` becomes
`List.find?` (first match in natural order), `deleteOne` removes the first
matching document, and the JS object spread in the create handlers becomes
an append on association lists where the *last* binding for a key wins
(exactly the JS object-literal semantics).  Randomness (`Math.random` in
`generateCode`) and the opaque collaborators (bcrypt, jsonwebtoken) are
passed in explicitly as parameters.
-/

namespace FamilyTime

/-! ## JS objects as association lists (last binding wins)

`new ClassSession({ ...req.body, owner_id: req.userId })` builds an object
literal whose properties are `req.body`'s own properties in order, followed
by `owner_id`; in JS a later property overwrites an earlier one with the
same key.  We model an object as a `List (String × α)` read with
"last binding wins" lookup. -/

/-- Last-binding-wins lookup, the JS object property read. -/
def objGet (o : List (String × α)) (k : String) : Option α :=
  (o.reverse.find? (fun p => p.1 == k)).map (fun p => p.2)

/-- The object literal `{ ...body, owner_id: uid }` from the three create
handlers (`app.post('/classes' | '/exams' | '/notes')`, src/server.js
lines 248-252, 258-262, 268-272): spread the caller's body, then bind
`owner_id` to the authenticated user id. -/
def stampOwner (body : List (String × α)) (uid : α) : List (String × α) :=
  body ++ [("owner_id", uid)]

/-- `app.post('/classes')` etc.: build the stamped document and save it
(append to the collection); respond with the new document. -/
def createRecord (store : List (List (String × α))) (body : List (String × α))
    (uid : α) : List (List (String × α)) × List (String × α) :=
  let newDoc := stampOwner body uid
  (store ++ [newDoc], newDoc)

theorem objGet_stampOwner (body : List (String × α)) (uid : α) :
    objGet (stampOwner body uid) "owner_id" = some uid := by
  simp [objGet, stampOwner, List.find?]

/-! ## Data model

`UserSchema` (src/server.js lines 40-45): username and family_code each
carry a unique index; `viewers` is a list of `{ name, joinedAt }`
subdocuments.  Mongo assigns each document an `_id`; we model ids as `Nat`. -/

structure Viewer where
  name : String
  joinedAt : Nat
deriving Repr, DecidableEq

structure User where
  _id : Nat
  username : String
  password_hash : String
  family_code : String
  viewers : List Viewer
deriving Repr, DecidableEq

/-! ## generateCode (src/server.js lines 62-69)

`chars` is the string literal from line 63; the loop draws
`Math.floor(Math.random() * chars.length)`, a number in `[0, chars.length)`,
five times — we pass the five draws in as `r : Fin 5 → Fin 32`
(`chars.length` is 32). -/

def codeAlphabet : List Char := "ABCDEFGHJKLMNPQRSTUVWXYZ23456789".toList

theorem codeAlphabet_length : codeAlphabet.length = 32 := by decide

def generateCode (r : Fin 5 → Fin 32) : String :=
  String.mk ((List.finRange 5).map fun i =>
    codeAlphabet.get (Fin.cast codeAlphabet_length.symm (r i)))

/-! ## register (src/server.js lines 94-116) -/

inductive RegisterResult
  | duplicateUsername
  | storageFailure
  | created (family_code : String)
deriving Repr, DecidableEq

/-- `app.post('/auth/register')`.  `hash` models `bcrypt.hash`; `codes` is
the stream of values successive calls to `generateCode` would return — the
handler consumes only its head, calling `generateCode()` exactly once;
`fid` is the fresh `_id` the store assigns.  The schema declares a unique
index on `family_code` (line 43), so `newUser.save()` is rejected by the
store when the generated code already belongs to an owner; the handler's
`catch` turns that rejection into a 500 response (`storageFailure`). -/
def register (hash : String → String) (st : List User)
    (username password : String) (codes : List String) (fid : Nat) :
    RegisterResult × List User :=
  match st.find? (fun u => u.username == username) with
  | some _ => (.duplicateUsername, st)
  | none =>
    let h := hash password
    let code := codes.headD ""
    if (st.find? (fun u => u.family_code == code)).isSome then
      (.storageFailure, st)
    else
      (.created code, st ++ [⟨fid, username, h, code, []⟩])

/-! ## login (src/server.js lines 119-137) -/

inductive LoginResult
  | invalidCredentials
  | ok (token_id : Nat) (family_code : String)
deriving Repr, DecidableEq

/-- `app.post('/auth/login')`.  `verifyPw` models `bcrypt.compare`; on
success `jwt.sign({ id: user._id }, ...)` binds only the id claim, so the
issued token is modelled by the id it carries. -/
def login (verifyPw : String → String → Bool) (st : List User)
    (username password : String) : LoginResult :=
  match st.find? (fun u => u.username == username) with
  | none => .invalidCredentials
  | some user =>
    if verifyPw password user.password_hash then .ok user._id user.family_code
    else .invalidCredentials

/-! ## Schedule records and the gateway routes

The three record variants (Class, Exam, Note) share the same ownership
shape: an `owner_id` reference plus variant-specific payload fields, which
we keep generic in `π` since neither the public listing filter
(`find({ owner_id })`) nor `deleteOne({ _id, owner_id })` reads them. -/

structure SRecord (π : Type) where
  _id : Nat
  owner_id : Nat
  payload : π
deriving Repr, DecidableEq

inductive PublicResult (π : Type)
  | notFound
  | ok (records : List (SRecord π))
deriving Repr, DecidableEq

/-- The records an HTTP response carries: none on a 404. -/
def PublicResult.returned : PublicResult π → List (SRecord π)
  | .notFound => []
  | .ok rs => rs

/-- `app.get('/public/classes' | '/public/exams' | '/public/notes')`
(src/server.js lines 209-240): resolve the code to a user, 404 on an
unknown code, else return the documents whose `owner_id` is that user's
`_id`. -/
def listPublic (users : List User) (records : List (SRecord π))
    (code : String) : PublicResult π :=
  match users.find? (fun u => u.family_code == code) with
  | none => .notFound
  | some user => .ok (records.filter (fun r => r.owner_id == user._id))

/-- `app.delete('/classes/:id' | '/exams/:id' | '/notes/:id')`
(src/server.js lines 275-294): `deleteOne({ _id, owner_id })` removes the
first (hence, ids being unique, the only) document matching both the
record id and the authenticated owner id; the handler answers
`{ message: "Deleted" }` unconditionally. -/
def deleteRecord (records : List (SRecord π)) (uid rid : Nat) :
    String × List (SRecord π) :=
  ("Deleted", records.eraseP (fun r => r._id == rid && r.owner_id == uid))

/-! ## Viewer membership: join and leave (src/server.js lines 140-176)

Both handlers resolve the code with `findOne({ family_code: code })`,
mutate the returned document's `viewers` array when `name` is truthy, and
`user.save()` writes that one document back.  We model the write-back as
replacing the first store entry satisfying the lookup predicate — exactly
the document `findOne` returned. -/

/-- Resolve an access code to its owner: `User.findOne({ family_code })`,
the first match in natural order. -/
def ownerOf (st : List User) (code : String) : Option User :=
  st.find? (fun u => u.family_code == code)

/-- The resolved owner's viewer list (empty when the code resolves to no
owner) — what a subsequent owner lookup observes. -/
def viewersOf (st : List User) (code : String) : List Viewer :=
  ((ownerOf st code).map User.viewers).getD []

/-- Replace the first element satisfying `p` — `user.save()` writing back
the single document `findOne` returned. -/
def replaceFirst (p : α → Bool) (f : α → α) : List α → List α
  | [] => []
  | a :: l => if p a then f a :: l else a :: replaceFirst p f l

/-- The join handler's mutation: `user.viewers.find(v => v.name === name)`
then `push({ name })` when absent; `now` models the `joinedAt: Date.now`
default the schema fills in. -/
def pushViewerIfNew (u : User) (name : String) (now : Nat) : User :=
  if (u.viewers.find? (fun v => v.name == name)).isSome then u
  else { u with viewers := u.viewers ++ [⟨name, now⟩] }

/-- The leave handler's mutation:
`user.viewers = user.viewers.filter(v => v.name !== name)`. -/
def removeViewer (u : User) (name : String) : User :=
  { u with viewers := u.viewers.filter (fun v => v.name != name) }

inductive JoinResult
  | notFound
  | joined (family_code : String)
deriving Repr, DecidableEq

inductive LeaveResult
  | notFound
  | left
deriving Repr, DecidableEq

/-- `app.post('/auth/join')`: 404 on an unknown code; with a truthy `name`
(present and non-empty — `if (name)`) add the viewer unless already
present, then save; answer `{ message: "Joined", family_code: code }`
either way.  A missing `name` is modelled by `""`, falsy like JS
`undefined`. -/
def joinFamily (st : List User) (code name : String) (now : Nat) :
    JoinResult × List User :=
  match ownerOf st code with
  | none => (.notFound, st)
  | some _ =>
    if name = "" then (.joined code, st)
    else (.joined code,
      replaceFirst (fun u => u.family_code == code)
        (fun u => pushViewerIfNew u name now) st)

/-- `app.post('/auth/leave')`: 404 on an unknown code; with a truthy
`name` filter out every matching viewer and save; answer
`{ message: "Left family" }` either way. -/
def leaveFamily (st : List User) (code name : String) :
    LeaveResult × List User :=
  match ownerOf st code with
  | none => (.notFound, st)
  | some _ =>
    if name = "" then (.left, st)
    else (.left,
      replaceFirst (fun u => u.family_code == code)
        (fun u => removeViewer u name) st)

/-! ## The authenticate middleware (src/server.js lines 72-84) -/

inductive AuthResult
  | missing
  | invalidToken
  | ok (uid : Nat)
deriving Repr, DecidableEq

/-- JS `String.prototype.split` with a single-character separator: split
on every occurrence, keeping empty parts; `"".split(' ')` is `[""]`. -/
def splitChar (sep : Char) : List Char → List (List Char)
  | [] => [[]]
  | c :: cs =>
    match splitChar sep cs with
    | [] => [[]]
    | part :: parts =>
      if c = sep then [] :: part :: parts
      else (c :: part) :: parts

/-- The `authenticate` middleware.  A missing or falsy (empty)
`Authorization` header answers 401 "Access denied" (`missing`); otherwise
the token is `authHeader.split(' ')[1]` — the scheme part is never
examined — and `jwt.verify` (modelled by `verify`, `none` standing for the
throw on a malformed, forged or expired token) also throws on an
`undefined` token, which the catch turns into 401 "Invalid Token"
(`invalidToken`). -/
def authenticate (verify : List Char → Option Nat)
    (header : Option (List Char)) : AuthResult :=
  match header with
  | none => .missing
  | some h =>
    if h = [] then .missing
    else
      match (splitChar ' ' h)[1]? with
      | none => .invalidToken
      | some tok =>
        match verify tok with
        | some uid => .ok uid
        | none => .invalidToken

/-- C1: for every authenticated owner id and every create payload — in
particular a payload carrying an `owner_id` field naming some other owner —
the document persisted by the create handler, and the document returned,
both have `owner_id` equal to the session's owner id: the spread
`{ ...req.body, owner_id: req.userId }` always overwrites any
caller-supplied owner field. -/
theorem C1_create_stamps_session_owner {α : Type} (store : List (List (String × α)))
    (body : List (String × α)) (uid : α) :
    objGet (createRecord store body uid).2 "owner_id" = some uid ∧
    (createRecord store body uid).1.getLast? = some (stampOwner body uid) ∧
    objGet (stampOwner body uid) "owner_id" = some uid := by
  refine ⟨objGet_stampOwner body uid, ?_, objGet_stampOwner body uid⟩
  simp [createRecord]

/-- C2, counterexample: the handler does not retry code generation on
collision.  With one owner holding code "AAAAA" and the generator stream
["AAAAA", "BBBBB"], registering the fresh username "bob" fails with a
storage error (500) and persists nothing, even though the very next code
"BBBBB" is free — the claimed retry would have succeeded. -/
theorem C2_no_retry_counterexample :
    register (fun s => s) [⟨0, "alice", "h", "AAAAA", []⟩] "bob" "pw"
      ["AAAAA", "BBBBB"] 1
      = (.storageFailure, [⟨0, "alice", "h", "AAAAA", []⟩]) := by
  rfl

/-- C2, amended: `generateCode` is called exactly once per registration;
when the username is fresh but the single generated code collides with an
existing owner's code, the save is rejected by the unique index and the
registration fails with a storage error (500), leaving the owner set
unchanged — whatever codes a retry would have drawn next. -/
theorem C2_register_fails_on_code_collision
    (hash : String → String) (st : List User) (username password : String)
    (c : String) (rest : List String) (fid : Nat)
    (hu : ∀ u ∈ st, u.username ≠ username)
    (hc : ∃ u ∈ st, u.family_code = c) :
    register hash st username password (c :: rest) fid = (.storageFailure, st) := by
  have hnone : st.find? (fun u => u.username == username) = none := by
    rw [List.find?_eq_none]
    intro u hmem
    simp [hu u hmem]
  have hsome : (st.find? (fun u => u.family_code == c)).isSome := by
    rw [List.find?_isSome]
    obtain ⟨u, hmem, he⟩ := hc
    exact ⟨u, hmem, by simp [he]⟩
  simp [register, hnone, hsome]

theorem C2_register_fails_on_code_collision_witness :
    (∀ u ∈ [User.mk 0 "alice" "h" "AAAAA" []], u.username ≠ "bob") ∧
    (∃ u ∈ [User.mk 0 "alice" "h" "AAAAA" []], u.family_code = "AAAAA") ∧
    register (fun s => s) [User.mk 0 "alice" "h" "AAAAA" []] "bob" "pw"
      ["AAAAA", "BBBBB"] 1 = (.storageFailure, [User.mk 0 "alice" "h" "AAAAA" []]) :=
  ⟨by decide, by decide,
    C2_register_fails_on_code_collision (fun s => s) _ "bob" "pw" "AAAAA" ["BBBBB"] 1
      (by decide) (by decide)⟩

/-- C3, counterexample: the alphabet defined in `generateCode` — uppercase
letters and digits with the visually ambiguous I, O, 0, 1 removed — has 32
symbols, not 33 as the claim states. -/
theorem C3_alphabet_size_counterexample :
    codeAlphabet.length = 32 ∧ codeAlphabet.length ≠ 33 ∧
    codeAlphabet = "ABCDEFGHIJKLMNOPQRSTUVWXYZ0123456789".toList.filter
      (fun c => !(['I', 'O', '0', '1'].contains c)) := by
  decide

theorem get_mem_self (l : List α) (j : Fin l.length) : l.get j ∈ l :=
  l.get_mem j.1 j.2

theorem codeAlphabet_chars : ∀ c ∈ codeAlphabet,
    (c.isUpper ∨ c.isDigit) ∧ c ≠ 'I' ∧ c ≠ 'O' ∧ c ≠ '0' ∧ c ≠ '1' := by
  decide

/-- C3, amended: every generated access code is a string of exactly 5
characters, each drawn from the defined 32-symbol alphabet of uppercase
letters and digits excluding the visually ambiguous I, O, 0 and 1. -/
theorem C3_code_shape (r : Fin 5 → Fin 32) :
    (generateCode r).length = 5 ∧
    ∀ c ∈ (generateCode r).toList, c ∈ codeAlphabet ∧
      (c.isUpper ∨ c.isDigit) ∧ c ≠ 'I' ∧ c ≠ 'O' ∧ c ≠ '0' ∧ c ≠ '1' := by
  constructor
  · simp [generateCode, String.length]
  · intro c hc
    have hmem : c ∈ codeAlphabet := by
      simp only [generateCode, String.toList, String.mk, List.mem_map] at hc
      obtain ⟨i, _, hi⟩ := hc
      exact hi ▸ get_mem_self codeAlphabet _
    exact ⟨hmem, codeAlphabet_chars c hmem⟩

theorem C3_code_shape_witness :
    (generateCode (fun _ => 0)).length = 5 ∧
    ('A' ∈ codeAlphabet ∧ ('A'.isUpper ∨ 'A'.isDigit) ∧
      'A' ≠ 'I' ∧ 'A' ≠ 'O' ∧ 'A' ≠ '0' ∧ 'A' ≠ '1') :=
  ⟨(C3_code_shape (fun _ => 0)).1,
   (C3_code_shape (fun _ => 0)).2 'A' (by decide)⟩

/-- C9: registering a username that an existing owner already holds fails
with `duplicateUsername` (400 "Username already exists") and leaves the
owner collection unchanged — in particular the owner count is unchanged. -/
theorem C9_duplicate_username_rejected
    (hash : String → String) (st : List User) (username password : String)
    (codes : List String) (fid : Nat)
    (h : ∃ u ∈ st, u.username = username) :
    register hash st username password codes fid = (.duplicateUsername, st) ∧
    (register hash st username password codes fid).2.length = st.length := by
  have hsome : (st.find? (fun u => u.username == username)).isSome := by
    rw [List.find?_isSome]
    obtain ⟨u, hmem, he⟩ := h
    exact ⟨u, hmem, by simp [he]⟩
  obtain ⟨u, hu⟩ := Option.isSome_iff_exists.mp hsome
  simp [register, hu]

/-- C4: every failed login — username absent from the store, or password
rejected by `bcrypt.compare` against the stored hash — produces the one
`invalidCredentials` outcome (400 "Invalid credentials"), so the two
failure causes are indistinguishable to the caller. -/
theorem C4_login_failures_indistinguishable
    (verifyPw : String → String → Bool) (st : List User)
    (username password : String)
    (h : (∀ u ∈ st, u.username ≠ username) ∨
      (∃ u, st.find? (fun u => u.username == username) = some u ∧
        verifyPw password u.password_hash = false)) :
    login verifyPw st username password = .invalidCredentials := by
  rcases h with h | ⟨u, hu, hv⟩
  · have hn : st.find? (fun u => u.username == username) = none := by
      rw [List.find?_eq_none]
      intro u hm
      simp [h u hm]
    simp [login, hn]
  · simp [login, hu, hv]

theorem C4_login_failures_indistinguishable_witness :
    login (fun p d => (p ++ "#") == d) [User.mk 0 "alice" "pw#" "AAAAA" []]
      "bob" "pw" = .invalidCredentials ∧
    login (fun p d => (p ++ "#") == d) [User.mk 0 "alice" "pw#" "AAAAA" []]
      "alice" "wrong" = .invalidCredentials :=
  ⟨C4_login_failures_indistinguishable _ _ "bob" "pw" (Or.inl (by decide)),
   C4_login_failures_indistinguishable _ _ "alice" "wrong"
     (Or.inr ⟨User.mk 0 "alice" "pw#" "AAAAA" [], by decide, by decide⟩)⟩

/-- C5: a public listing with a code no owner holds answers 404 and
carries no records; with a code resolving to an owner it returns exactly
that owner's records of the requested kind. -/
theorem C5_public_list_scoped {π : Type} (users : List User)
    (records : List (SRecord π)) (code : String) :
    ((∀ u ∈ users, u.family_code ≠ code) →
      listPublic users records code = .notFound ∧
      (listPublic users records code).returned = []) ∧
    (∀ user, users.find? (fun u => u.family_code == code) = some user →
      (listPublic users records code).returned =
        records.filter (fun r => r.owner_id == user._id) ∧
      ∀ r, r ∈ (listPublic users records code).returned ↔
        (r ∈ records ∧ r.owner_id = user._id)) := by
  constructor
  · intro h
    have hn : users.find? (fun u => u.family_code == code) = none := by
      rw [List.find?_eq_none]
      intro u hm
      simp [h u hm]
    simp [listPublic, hn, PublicResult.returned]
  · intro user hu
    refine ⟨by simp [listPublic, hu, PublicResult.returned], fun r => ?_⟩
    simp [listPublic, hu, PublicResult.returned, List.mem_filter]

theorem C5_public_list_scoped_witness :
    listPublic [User.mk 0 "alice" "h" "AAAAA" []]
      [SRecord.mk 10 0 (), SRecord.mk 11 7 ()] "ZZZZZ" = .notFound ∧
    (listPublic [User.mk 0 "alice" "h" "AAAAA" []]
      [SRecord.mk 10 0 (), SRecord.mk 11 7 ()] "AAAAA").returned
        = [SRecord.mk 10 0 ()] :=
  ⟨((C5_public_list_scoped _ _ _).1 (by decide)).1, by
    have h := ((C5_public_list_scoped [User.mk 0 "alice" "h" "AAAAA" []]
      [SRecord.mk 10 0 (), SRecord.mk 11 7 ()] "AAAAA").2
      (User.mk 0 "alice" "h" "AAAAA" []) (by decide)).1
    rw [h]
    decide⟩

/-- C7: delete always acknowledges with "Deleted"; when no stored record
matches both the requested id and the authenticated owner id (the id is
unknown, or the record belongs to another owner) the collection is
unchanged; and any record the operation removes matched both — a record is
deleted only by its owner. -/
theorem C7_delete_owner_scoped {π : Type} (records : List (SRecord π))
    (uid rid : Nat) :
    (deleteRecord records uid rid).1 = "Deleted" ∧
    ((∀ r ∈ records, ¬(r._id = rid ∧ r.owner_id = uid)) →
      (deleteRecord records uid rid).2 = records) ∧
    (∀ r ∈ records, r ∉ (deleteRecord records uid rid).2 →
      r._id = rid ∧ r.owner_id = uid) := by
  refine ⟨rfl, ?_, ?_⟩
  · intro h
    simp only [deleteRecord]
    rw [List.eraseP_eq_self_iff]
    intro r hm
    simp only [Bool.and_eq_true, beq_iff_eq]
    exact h r hm
  · intro r hm hnot
    simp only [deleteRecord] at hnot
    by_contra hc
    exact hnot ((List.mem_eraseP_of_neg (by
      simp only [Bool.and_eq_true, beq_iff_eq]
      exact hc)).mpr hm)

theorem C7_delete_owner_scoped_witness :
    (deleteRecord [SRecord.mk 10 0 (), SRecord.mk 11 7 ()] 0 11).1 = "Deleted" ∧
    (deleteRecord [SRecord.mk 10 0 (), SRecord.mk 11 7 ()] 0 11).2
      = [SRecord.mk 10 0 (), SRecord.mk 11 7 ()] :=
  ⟨(C7_delete_owner_scoped [SRecord.mk 10 0 (), SRecord.mk 11 7 ()] 0 11).1,
   (C7_delete_owner_scoped [SRecord.mk 10 0 (), SRecord.mk 11 7 ()] 0 11).2.1
     (by decide)⟩

theorem C9_duplicate_username_rejected_witness :
    (∃ u ∈ [User.mk 0 "alice" "h" "AAAAA" []], u.username = "alice") ∧
    register (fun s => s) [User.mk 0 "alice" "h" "AAAAA" []] "alice" "pw2"
      ["CCCCC"] 1 = (.duplicateUsername, [User.mk 0 "alice" "h" "AAAAA" []]) :=
  ⟨by decide,
    (C9_duplicate_username_rejected (fun s => s) _ "alice" "pw2" ["CCCCC"] 1
      (by decide)).1⟩

theorem find?_replaceFirst (p : α → Bool) (f : α → α) (l : List α)
    (hp : ∀ a, p a = true → p (f a) = true) :
    (replaceFirst p f l).find? p = (l.find? p).map f := by
  induction l with
  | nil => rfl
  | cons a l ih =>
    by_cases h : p a = true
    · simp [replaceFirst, h, hp a h]
    · simp [replaceFirst, h, ih]

theorem pushViewerIfNew_family_code (u : User) (name : String) (now : Nat) :
    (pushViewerIfNew u name now).family_code = u.family_code := by
  unfold pushViewerIfNew
  split <;> rfl

theorem countP_pushViewerIfNew (u : User) (name : String) (now : Nat)
    (h : u.viewers.countP (fun v => v.name == name) ≤ 1) :
    (pushViewerIfNew u name now).viewers.countP (fun v => v.name == name) = 1 := by
  unfold pushViewerIfNew
  split
  next hf =>
    have h1 : 0 < u.viewers.countP (fun v => v.name == name) := by
      rw [List.countP_pos_iff]
      rw [List.find?_isSome] at hf
      exact hf
    omega
  next hf =>
    have h0 : u.viewers.countP (fun v => v.name == name) = 0 := by
      rw [List.countP_eq_zero]
      intro v hv
      exact List.find?_eq_none.mp (Option.not_isSome_iff_eq_none.mp hf) v hv
    simp [List.countP_append, h0, List.countP_cons]

/-- Reduction of the join handler on a code that resolves, with a truthy
name: answer Joined and write back the mutated document. -/
theorem joinFamily_of_found (st : List User) (code name : String) (now : Nat)
    (u : User) (hu : ownerOf st code = some u) (hname : name ≠ "") :
    joinFamily st code name now = (.joined code,
      replaceFirst (fun v => v.family_code == code)
        (fun v => pushViewerIfNew v name now) st) := by
  unfold joinFamily
  rw [hu]
  simp [hname]

/-- Reduction of the leave handler on a code that resolves, with a truthy
name: answer Left and write back the filtered document. -/
theorem leaveFamily_of_found (st : List User) (code name : String)
    (u : User) (hu : ownerOf st code = some u) (hname : name ≠ "") :
    leaveFamily st code name = (.left,
      replaceFirst (fun v => v.family_code == code)
        (fun v => removeViewer v name) st) := by
  unfold leaveFamily
  rw [hu]
  simp [hname]

/-- C6: joining twice under a valid code with the same (truthy) viewer
name succeeds both times, and the resolved owner's viewer list afterwards
holds exactly one entry with that name — assuming the documented per-owner
name-uniqueness invariant held beforehand. -/
theorem C6_join_idempotent (st : List User) (code name : String)
    (t1 t2 : Nat) (u : User)
    (hu : ownerOf st code = some u)
    (hname : name ≠ "")
    (huniq : u.viewers.countP (fun v => v.name == name) ≤ 1) :
    (joinFamily st code name t1).1 = .joined code ∧
    (joinFamily (joinFamily st code name t1).2 code name t2).1 = .joined code ∧
    (viewersOf (joinFamily (joinFamily st code name t1).2 code name t2).2
      code).countP (fun v => v.name == name) = 1 := by
  have hp : ∀ (t : Nat) (a : User), (a.family_code == code) = true →
      ((pushViewerIfNew a name t).family_code == code) = true := fun t a ha => by
    rw [pushViewerIfNew_family_code]
    exact ha
  have hj1 : joinFamily st code name t1
      = (.joined code, replaceFirst (fun v => v.family_code == code)
          (fun v => pushViewerIfNew v name t1) st) :=
    joinFamily_of_found st code name t1 u hu hname
  have hu1 : ownerOf (joinFamily st code name t1).2 code
      = some (pushViewerIfNew u name t1) := by
    rw [hj1]
    unfold ownerOf at hu ⊢
    rw [find?_replaceFirst _ _ _ (hp t1), hu]
    rfl
  have hj2 : joinFamily (joinFamily st code name t1).2 code name t2
      = (.joined code, replaceFirst (fun v => v.family_code == code)
          (fun v => pushViewerIfNew v name t2) (joinFamily st code name t1).2) :=
    joinFamily_of_found _ code name t2 (pushViewerIfNew u name t1) hu1 hname
  have hu2 : ownerOf (joinFamily (joinFamily st code name t1).2 code name t2).2 code
      = some (pushViewerIfNew (pushViewerIfNew u name t1) name t2) := by
    rw [hj2]
    unfold ownerOf at hu1 ⊢
    rw [find?_replaceFirst _ _ _ (hp t2), hu1]
    rfl
  have hv : viewersOf (joinFamily (joinFamily st code name t1).2 code name t2).2 code
      = (pushViewerIfNew (pushViewerIfNew u name t1) name t2).viewers := by
    unfold viewersOf
    rw [hu2]
    rfl
  refine ⟨by rw [hj1], by rw [hj2], ?_⟩
  rw [hv]
  exact countP_pushViewerIfNew _ name t2
    (le_of_eq (countP_pushViewerIfNew u name t1 huniq))

theorem C6_join_idempotent_witness :
    (joinFamily [User.mk 0 "alice" "h" "AAAAA" []] "AAAAA" "Mom" 1).1
      = .joined "AAAAA" ∧
    (joinFamily (joinFamily [User.mk 0 "alice" "h" "AAAAA" []]
      "AAAAA" "Mom" 1).2 "AAAAA" "Mom" 2).1 = .joined "AAAAA" ∧
    (viewersOf (joinFamily (joinFamily [User.mk 0 "alice" "h" "AAAAA" []]
      "AAAAA" "Mom" 1).2 "AAAAA" "Mom" 2).2 "AAAAA").countP
      (fun v => v.name == "Mom") = 1 :=
  C6_join_idempotent _ "AAAAA" "Mom" 1 2 (User.mk 0 "alice" "h" "AAAAA" [])
    (by decide) (by decide) (by decide)

/-- C8: leave under a valid code with a truthy name succeeds, and the
resolved owner's viewer list afterwards is exactly the old list with every
entry whose name matches removed and nothing else touched; in particular
when no entry matches the list is unchanged. -/
theorem C8_leave_exact (st : List User) (code name : String) (u : User)
    (hu : ownerOf st code = some u) (hname : name ≠ "") :
    (leaveFamily st code name).1 = .left ∧
    viewersOf (leaveFamily st code name).2 code
      = u.viewers.filter (fun v => v.name != name) ∧
    ((∀ v ∈ u.viewers, v.name ≠ name) →
      viewersOf (leaveFamily st code name).2 code = u.viewers) := by
  have hp : ∀ a : User, (a.family_code == code) = true →
      ((removeViewer a name).family_code == code) = true := fun a ha => ha
  have hl : leaveFamily st code name = (.left,
      replaceFirst (fun v => v.family_code == code)
        (fun v => removeViewer v name) st) :=
    leaveFamily_of_found st code name u hu hname
  have hu1 : ownerOf (leaveFamily st code name).2 code
      = some (removeViewer u name) := by
    rw [hl]
    unfold ownerOf at hu ⊢
    rw [find?_replaceFirst _ _ _ hp, hu]
    rfl
  have hv : viewersOf (leaveFamily st code name).2 code
      = u.viewers.filter (fun v => v.name != name) := by
    unfold viewersOf
    rw [hu1]
    rfl
  refine ⟨by rw [hl], hv, fun habs => ?_⟩
  rw [hv, List.filter_eq_self]
  intro v hvm
  simpa using habs v hvm

theorem C8_leave_exact_witness :
    (leaveFamily [User.mk 0 "alice" "h" "AAAAA" [Viewer.mk "Mom" 5]]
      "AAAAA" "Unknown").1 = .left ∧
    viewersOf (leaveFamily [User.mk 0 "alice" "h" "AAAAA" [Viewer.mk "Mom" 5]]
      "AAAAA" "Unknown").2 "AAAAA" = [Viewer.mk "Mom" 5] :=
  ⟨(C8_leave_exact _ "AAAAA" "Unknown"
      (User.mk 0 "alice" "h" "AAAAA" [Viewer.mk "Mom" 5])
      (by decide) (by decide)).1,
   (C8_leave_exact _ "AAAAA" "Unknown"
      (User.mk 0 "alice" "h" "AAAAA" [Viewer.mk "Mom" 5])
      (by decide) (by decide)).2.2 (by decide)⟩

theorem splitChar_cons (sep c : Char) (cs : List Char) :
    splitChar sep (c :: cs) =
      match splitChar sep cs with
      | [] => [[]]
      | part :: parts =>
        if c = sep then [] :: part :: parts else (c :: part) :: parts := rfl

theorem splitChar_ne_nil (sep : Char) (l : List Char) : splitChar sep l ≠ [] := by
  cases l with
  | nil => simp [splitChar]
  | cons c cs =>
    rw [splitChar_cons]
    split
    · simp
    · split <;> simp

theorem splitChar_of_not_mem (sep : Char) (l : List Char) (h : sep ∉ l) :
    splitChar sep l = [l] := by
  induction l with
  | nil => rfl
  | cons c cs ih =>
    rw [List.mem_cons, not_or] at h
    obtain ⟨h1, h2⟩ := h
    have hc : ¬(c = sep) := fun he => h1 he.symm
    rw [splitChar_cons, ih h2]
    show (if c = sep then [] :: cs :: [] else (c :: cs) :: []) = [c :: cs]
    rw [if_neg hc]

theorem splitChar_append_sep (sep : Char) (s t : List Char) (h : sep ∉ s) :
    splitChar sep (s ++ sep :: t) = s :: splitChar sep t := by
  induction s with
  | nil =>
    rw [List.nil_append, splitChar_cons]
    cases ht : splitChar sep t with
    | nil => rfl
    | cons part parts =>
      show (if sep = sep then [] :: part :: parts else (sep :: part) :: parts)
        = [] :: part :: parts
      rw [if_pos rfl]
  | cons c cs ih =>
    rw [List.mem_cons, not_or] at h
    obtain ⟨h1, h2⟩ := h
    have hc : ¬(c = sep) := fun he => h1 he.symm
    rw [List.cons_append, splitChar_cons, ih h2]
    show (if c = sep then [] :: cs :: splitChar sep t
      else (c :: cs) :: splitChar sep t) = (c :: cs) :: splitChar sep t
    rw [if_neg hc]

/-- C10, counterexample: an `Authorization` header that is present but
empty contains no space, yet the middleware's falsy check
(`if (!authHeader)`) classifies it as missing — 401 "Access denied" —
rather than reaching token extraction and failing with "Invalid Token",
refuting the claim's "for every header containing no space" universal. -/
theorem C10_empty_header_counterexample :
    authenticate (fun _ => none) (some []) = .missing ∧
    authenticate (fun _ => none) (some []) ≠ .invalidToken :=
  ⟨rfl, by decide⟩

/-- C10, amended: the middleware never validates the scheme — for any
space-free scheme part `s`, the header `s ++ " " ++ t` makes it verify
exactly `t` (the second space-separated part) as the token, so
"Basic jwt" authenticates the same as "Bearer jwt"; and every non-empty
header containing no space leaves the extracted token undefined and is
rejected with "Invalid Token", not with the missing-header rejection. -/
theorem C10_scheme_never_validated (verify : List Char → Option Nat)
    (s t w : List Char) :
    ((' ' ∉ s) → (' ' ∉ t) →
      authenticate verify (some (s ++ ' ' :: t)) =
        (match verify t with
         | some uid => AuthResult.ok uid
         | none => AuthResult.invalidToken)) ∧
    (w ≠ [] → (' ' ∉ w) → authenticate verify (some w) = .invalidToken) := by
  constructor
  · intro hs ht
    have hne : s ++ ' ' :: t ≠ [] := by simp
    simp only [authenticate, if_neg hne, splitChar_append_sep ' ' s t hs,
      splitChar_of_not_mem ' ' t ht]
    rfl
  · intro hw hnm
    simp only [authenticate, if_neg hw, splitChar_of_not_mem ' ' w hnm]
    rfl

theorem C10_scheme_never_validated_witness :
    authenticate (fun tok => if tok = "tok".toList then some 42 else none)
      (some ("Basic".toList ++ ' ' :: "tok".toList)) = .ok 42 ∧
    authenticate (fun tok => if tok = "tok".toList then some 42 else none)
      (some "Basictok".toList) = .invalidToken :=
  ⟨((C10_scheme_never_validated _ "Basic".toList "tok".toList []).1
      (by decide) (by decide)).trans (by decide),
   (C10_scheme_never_validated
      (fun tok => if tok = "tok".toList then some 42 else none)
      "Basic".toList "tok".toList "Basictok".toList).2
      (by decide) (by decide)⟩

end FamilyTime
